import Mathlib

/-!
Verification development for the QGIS plugin source `layertilesmapcanvas.py`.

The file shallowly embeds the data model and the operations of the plugin:

* the URL-template mode detection of the `format_url` setter
  (`LayerTilesMapCanvas.format_url`, lines 376-394);
* the quadkey computation (`TilesMapCanvas._getQuadKey`, lines 136-147);
* the slippy-map tile arithmetic (`TilesMapCanvas._deg2num`, lines 128-134)
  and the extent-to-tile-range computation (`_getExtentTiles`, `total`);
* the tile iteration (`TilesMapCanvas.__call__`, lines 181-202);
* the download task (`TaskDownloadTiles.run` / `finished`, lines 226-311),
  with the external world (disk, network, the task cancel flag) passed in as
  explicit data;
* the sequential update / count-images / remove-images task bodies
  (`LayerTilesMapCanvas.updateFeatures`, `getTotalImages`, `removeImages`).

Python floats are idealised as real numbers; Python `int()` truncation toward
zero is `pyint`; Python `str.find` is `pyFind`.  External effects (gdal, the
network, the filesystem) are modelled by explicit per-request outcome data.
-/

/-- Python `str.find(c)` restricted to a single character: index of the first
occurrence, or `-1`.  Helper with running index. -/
def pyFindAux (c : Char) : List Char → Nat → Int
  | [], _ => -1
  | d :: rest, i => if d = c then (i : Int) else pyFindAux c rest (i + 1)

/-- Python `value.find(c)` for a one-character needle. -/
def pyFind (s : String) (c : Char) : Int := pyFindAux c s.toList 0

/-- The two URL addressing modes of the plugin. -/
inductive UrlMode
  | xyz
  | quadkey
deriving DecidableEq

/-- `value.find('z') + value.find('x') + value.find('y')` computed by the
`format_url` setter (line 381 of the source). -/
def totalZXY (value : String) : Int :=
  pyFind value 'z' + pyFind value 'x' + pyFind value 'y'

/-- Mode selection of the `format_url` setter (lines 381-387): quadkey
substitution is chosen exactly when `totalZXY < 0`. -/
def classifyUrl (value : String) : UrlMode :=
  if totalZXY value < 0 then .quadkey else .xyz

/-- `true` when none of the bare letters `x`, `y`, `z` occur in the string. -/
def noXYZ (value : String) : Bool :=
  value.toList.all fun c => !(c = 'x' || c = 'y' || c = 'z')

/-- Substring test, used to speak about the placeholder tokens such as the
three-character token `{x}`. -/
def containsTok (s pat : String) : Bool := decide (pat.toList <:+: s.toList)

/-- `TilesMapCanvas._getQuadKey` (lines 136-147): one base-4 digit per zoom
level, most significant bit first; bit `i-1` of `x` contributes 1, bit `i-1`
of `y` contributes 2. -/
def getQuadKey (zoom : Nat) (x y : Int) : List Char :=
  match zoom with
  | 0 => []
  | n + 1 =>
      let digit : Nat :=
        (if Int.land x (2 ^ n) ≠ 0 then 1 else 0) +
        (if Int.land y (2 ^ n) ≠ 0 then 2 else 0)
      Nat.digitChar digit :: getQuadKey n x y

/-- The inclusive tile-index range of `TilesMapCanvas._getExtentTiles`
(namedtuple `ExtentTiles`, line 162). -/
structure ExtentTiles where
  x1 : Int
  y1 : Int
  x2 : Int
  y2 : Int
deriving DecidableEq

/-- `TilesMapCanvas.total` (lines 177-179). -/
def totalTiles (e : ExtentTiles) : Int :=
  (e.x2 - e.x1 + 1) * (e.y2 - e.y1 + 1)

/-- The namedtuple `Tile` (`fields x y z q rect`).  The rectangle type is a
parameter: in the source the rect is produced by an external coordinate
transform, so the embedding receives the per-tile rect builder as a
function. -/
structure Tile (R : Type) where
  x : Int
  y : Int
  z : Nat
  q : List Char
  rect : R
deriving DecidableEq

/-- `TilesMapCanvas.__call__` (lines 181-202): the generator
`for x in range(e.x1, e.x2+1): for y in range(e.y1, e.y2+1): yield Tile(...)`
as a list.  `rectFn` stands for `getRectTile`. -/
def iterateTiles {R : Type} (rectFn : Int → Int → R) (zoom : Nat)
    (e : ExtentTiles) : List (Tile R) :=
  (List.range (e.x2 + 1 - e.x1).toNat).flatMap fun (i : Nat) =>
    (List.range (e.y2 + 1 - e.y1).toNat).map fun (j : Nat) =>
      let x := e.x1 + (i : Int)
      let y := e.y1 + (j : Int)
      ⟨x, y, zoom, getQuadKey zoom x y, rectFn x y⟩

/-! ### The download task (`TaskDownloadTiles`)

Each request carries the part of the external world the code consults for it:
whether the target file already exists on disk, whether gdal can open it, and
what the network returns.  The task cancel flag is a latch: `cancelAt = some t`
means the flag reads `true` from query number `t` on (queries are numbered by
the request index; the final query made by `finished` comes after all loop
queries). -/

/-- Outcome of `getResponseValue` followed by the gdal open of the in-memory
buffer: a network error with its message, or bytes that do / do not open as a
valid image. -/
inductive FetchRes
  | err (msg : String)
  | bytes (validImage : Bool)
deriving DecidableEq

/-- External outcome data for one tile request. -/
structure FetchEnv where
  fileExists : Bool
  fileValidImage : Bool
  fetchResult : FetchRes
deriving DecidableEq

/-- One element of `iterInfoFeatures`: the request name, its url and its
external outcome (`width/height/ulX/ulY` only feed the geotransform, which the
claims do not touch). -/
structure Request where
  name : String
  url : String
  env : FetchEnv
deriving DecidableEq

/-- Values stored in the result dictionaries. -/
inductive Val
  | b (v : Bool)
  | n (v : Int)
  | s (v : String)
deriving DecidableEq

/-- A Python dict as an association list in insertion order. -/
abbrev Payload := List (String × Val)

/-- Events observable on the signal channels: per-tile `image` emissions and
the terminal `finish` emission. -/
inductive Ev
  | imgMessage (name msg : String)
  | imgFile (name filepath : String)
  | finishEv (p : Payload)
deriving DecidableEq

/-- Scheduling events instrumenting the run loop: `start i` / `done i` mark
entry and exit of the synchronous `downloadImage(info)` call for request
number `i`. -/
inductive SchedEv
  | start (i : Nat)
  | done (i : Nat)
deriving DecidableEq

/-- Mosaic resampling algorithms (`gdal.GRIORA_...`). -/
inductive ResampleAlg
  | nearestNeighbour
  | bilinear
  | cubic
deriving DecidableEq

/-- The mutable state of `TaskDownloadTiles` during `run`, plus
instrumentation counters: `fetches` counts `getResponseValue` calls, `writes`
counts `driveTif.CreateCopy` calls, `sched` records the call structure of the
loop. -/
structure DState where
  countFeats : Nat
  countDownload : Nat
  vrt : List String
  events : List Ev
  fetches : Nat
  writes : Nat
  sched : List SchedEv
deriving DecidableEq

/-- Counters as reset at the top of `run` (lines 287-290). -/
def initDState : DState := ⟨0, 0, [], [], 0, 0, []⟩

/-- `os.path.join(self.dirPath, f"{info.name}.tif")` (line 252). -/
def tilePath (dirPath nm : String) : String := dirPath ++ "/" ++ nm ++ ".tif"

/-- The gdal-open failure message (line 233; the quotes of the f-string are
elided). -/
def openErrorMsg (url : String) : String := "Url " ++ url ++ ": Error open image"

/-- `downloadImage(info)` (lines 227-285): progress bump, cached-file branch,
network fetch, decode, copy-to-disk, and either the vrt accumulation or the
individual `image` emission. -/
def downloadImage (hasVrt : Bool) (dirPath : String) (st : DState)
    (r : Request) : DState :=
  let i := st.countFeats
  let st0 := { st with countFeats := i + 1, sched := st.sched ++ [SchedEv.start i] }
  let filepath := tilePath dirPath r.name
  let st1 :=
    if r.env.fileExists then
      if r.env.fileValidImage = false then
        { st0 with events := st0.events ++ [Ev.imgMessage r.name (openErrorMsg r.url)] }
      else if hasVrt then
        { st0 with vrt := st0.vrt ++ [filepath] }
      else
        { st0 with events := st0.events ++ [Ev.imgFile r.name filepath] }
    else
      let stf := { st0 with fetches := st0.fetches + 1 }
      match r.env.fetchResult with
      | .err e =>
          { stf with events := stf.events ++ [Ev.imgMessage r.name (e ++ " " ++ r.url)] }
      | .bytes false =>
          { stf with events := stf.events ++ [Ev.imgMessage r.name (openErrorMsg r.url)] }
      | .bytes true =>
          let std := { stf with countDownload := stf.countDownload + 1,
                                writes := stf.writes + 1 }
          if hasVrt then { std with vrt := std.vrt ++ [filepath] }
          else { std with events := std.events ++ [Ev.imgFile r.name filepath] }
  { st1 with sched := st1.sched ++ [SchedEv.done i] }

/-- The latching cancel flag of the task: query number `q` reads `true` iff
the flag was set at some query number `t ≤ q`. -/
def cancelFlag (cancelAt : Option Nat) (q : Nat) : Bool :=
  match cancelAt with
  | some t => decide (t ≤ q)
  | none => false

/-- The loop of `run` (lines 291-294): process a request, then check
`self.isCanceled()`; the query after request number `i` carries index `i`. -/
def runFrom (hasVrt : Bool) (dirPath : String) (cancelAt : Option Nat) :
    List Request → DState → DState
  | [], st => st
  | r :: rs, st =>
      let i := st.countFeats
      let st1 := downloadImage hasVrt dirPath st r
      if cancelFlag cancelAt i then st1
      else runFrom hasVrt dirPath cancelAt rs st1

/-- `TaskDownloadTiles.run` (lines 226-295): counters reset, then the loop. -/
def runDownload (hasVrt : Bool) (dirPath : String) (cancelAt : Option Nat)
    (reqs : List Request) : DState :=
  runFrom hasVrt dirPath cancelAt reqs initDState

/-- `os.path.join(self.dirPath, f"{self.name}_{self.zoom}.vrt")`
(lines 301-302). -/
def vrtFilepath (dirPath nm : String) (zoom : Nat) : String :=
  dirPath ++ "/" ++ nm ++ "_" ++ toString zoom ++ ".vrt"

/-- A `gdal.BuildVRT` invocation: input files, resampling algorithm, output
path. -/
structure MosaicCall where
  files : List String
  alg : ResampleAlg
  out : String
deriving DecidableEq

/-- The `BuildVRT` call performed by `finished` (lines 299-309): present only
when `self.hasVrt and bool(self.filepathImagesVrt)`; resampling is
`GRIORA_NearestNeighbour`. -/
def mosaicCall (nm dirPath : String) (zoom : Nat) (hasVrt : Bool)
    (st : DState) : Option MosaicCall :=
  if hasVrt = true ∧ st.vrt ≠ [] then
    some ⟨st.vrt, .nearestNeighbour, vrtFilepath dirPath nm zoom⟩
  else none

/-- The `image` emission made by `createVrt` (lines 305-306). -/
def mosaicEvents (nm dirPath : String) (zoom : Nat) (hasVrt : Bool)
    (st : DState) : List Ev :=
  match mosaicCall nm dirPath zoom hasVrt st with
  | some m => [Ev.imgFile (nm ++ " Z=" ++ toString zoom) m.out]
  | none => []

/-- The dict emitted on `finish` (line 311):
`{canceled: self.isCanceled(), total: self.countDownload}`; the
`isCanceled` query is the one made after the whole loop. -/
def taskFinishPayload (cancelAt : Option Nat) (st : DState) : Payload :=
  [("canceled", .b (cancelFlag cancelAt st.countFeats)),
   ("total", .n (st.countDownload : Int))]

/-- The `finished` slot of `downloadTiles` (lines 523-528):
`{name: download}` updated with the task result, emitted on
`finishProcess`. -/
def slotFinished (result : Payload) : Payload := ("name", .s "download") :: result

/-- The whole observable event stream of one download batch: the `image`
emissions of the loop, then the optional mosaic emission, then the single
terminal `finishProcess` emission. -/
def downloadStream (nm dirPath : String) (zoom : Nat) (hasVrt : Bool)
    (cancelAt : Option Nat) (reqs : List Request) : List Ev :=
  let st := runDownload hasVrt dirPath cancelAt reqs
  st.events ++ mosaicEvents nm dirPath zoom hasVrt st ++
    [Ev.finishEv (slotFinished (taskFinishPayload cancelAt st))]

/-- Dict lookup (first binding wins, matching insertion without duplicate
keys). -/
def plookup (k : String) : Payload → Option Val
  | [] => none
  | (k2, v) :: rest => if k2 = k then some v else plookup k rest

/-- Key-membership test on a payload. -/
def hasKey (p : Payload) (k : String) : Bool := (plookup k p).isSome

/-- Recogniser for the terminal event. -/
def isFinishEvB : Ev → Bool
  | .finishEv _ => true
  | _ => false

/-- Recogniser for per-tile informational `message` emissions. -/
def isMessageEvB : Ev → Bool
  | .imgMessage _ _ => true
  | _ => false

/-- `true` when `downloadImage` takes one of its three failure paths for the
request: existing file unreadable, network error, or downloaded bytes not an
image. -/
def requestFails (r : Request) : Bool :=
  if r.env.fileExists then !r.env.fileValidImage
  else
    match r.env.fetchResult with
    | .err _ => true
    | .bytes ok => !ok

/-- A request on which `downloadImage` produces a file (cached or freshly
downloaded). -/
def requestSucceeds (r : Request) : Bool := !requestFails r

/-- `true` when every request of the batch hits the cached-file fast path:
its target file exists and opens as a valid image. -/
def allCachedOk (reqs : List Request) : Bool :=
  reqs.all fun r => r.env.fileExists && r.env.fileValidImage

/-! ### The sequential task bodies of `LayerTilesMapCanvas` -/

/-- The loop of `updateFeatures.run` (lines 439-453) reduced to its counters:
`n` tiles remain, `c` tiles done; the cancel flag is checked at the top of
each iteration (query number = `c`). -/
def updateRun (cancelAt : Option Nat) : Nat → Nat → Payload
  | 0, c => [("canceled", .b false), ("total", .n (c : Int))]
  | k + 1, c =>
      if cancelFlag cancelAt c then [("canceled", .b true), ("total", .n (c : Int))]
      else updateRun cancelAt k (c + 1)

/-- The `finished` closures of `updateFeatures`, `getTotalImages` and
`removeImages` (lines 455-463, 558-564, 601-608): `{name: opName}`, then
the error entry when an exception is passed, then `r.update(result)`. -/
def taskSlotPayload (opName : String) (exc : Option String)
    (result : Payload) : Payload :=
  ("name", .s opName) ::
    ((match exc with
      | some m => [("error", .s ("Exception, " ++ m))]
      | none => []) ++ result)

/-- Python `str.endswith` via the character lists. -/
def strEndsWith (s suffix : String) : Bool := suffix.toList.isSuffixOf s.toList

/-- `getTotalImages.run` (lines 552-556): count the files ending in `tif`. -/
def countImagesRun (files : List String) : Payload :=
  [("canceled", .b false),
   ("total", .n (((files.filter fun f => strEndsWith f "tif").length : Nat) : Int))]

/-- `hasRemove` of `removeImages.run` (lines 583-587) with
`f_exts` = (tif, tif.aux.xml, vrt). -/
def hasRemove (f : String) : Bool :=
  strEndsWith f "tif" || strEndsWith f "tif.aux.xml" || strEndsWith f "vrt"

/-- The loop of `removeImages.run` (lines 592-599): skip non-matching files,
count and delete matching ones, check the cancel flag after each deletion
(query number = deletions made before this one). -/
def removeGo (cancelAt : Option Nat) : List String → Nat → Payload
  | [], c => [("canceled", .b false), ("total", .n (c : Int))]
  | f :: fs, c =>
      if !hasRemove f then removeGo cancelAt fs c
      else if cancelFlag cancelAt c then
        [("canceled", .b true), ("total", .n ((c + 1 : Nat) : Int))]
      else removeGo cancelAt fs (c + 1)

/-- `removeImages.run` (lines 582-599) including the early empty-directory
return. -/
def removeImagesRun (cancelAt : Option Nat) (files : List String) : Payload :=
  if files.length = 0 then [("canceled", .b false), ("total", .n 0)]
  else removeGo cancelAt files 0

/-! ### The worker-pool size policy of the specification

The specification describes a bounded worker pool; the following definition
is modelled from the spec for comparison with the source. -/

/-- Modelled from the spec:
`workers = cpuCount if requestCount > cpuCount else floor(requestCount/2)+1`.
No such computation exists in the source; this is the refinement target the
source is compared against. -/
def specWorkers (cpuCount requestCount : Nat) : Nat :=
  if requestCount > cpuCount then cpuCount else requestCount / 2 + 1

/-- The serialized trace shape: requests `s, s+1, …, s+k-1`, each fully
processed before the next starts. -/
def pairTrace (s : Nat) : Nat → List SchedEv
  | 0 => []
  | k + 1 => .start s :: .done s :: pairTrace (s + 1) k

/-- Indices of `start` events, in trace order. -/
def startIndices (t : List SchedEv) : List Nat :=
  t.filterMap fun e =>
    match e with
    | .start i => some i
    | .done _ => none

/-- Maximal number of simultaneously in-flight requests along a trace
(helper carrying current and maximal counts). -/
def inflightMax : List SchedEv → Nat → Nat → Nat
  | [], _, m => m
  | .start _ :: rest, cur, m => inflightMax rest (cur + 1) (max m (cur + 1))
  | .done _ :: rest, cur, m => inflightMax rest (cur - 1) m

/-- Maximal concurrency of a trace. -/
def maxInFlight (t : List SchedEv) : Nat := inflightMax t 0 0

/-! ### `format_url` setter state (`LayerTilesMapCanvas`, lines 376-394) -/

/-- The namedtuple `InfoTile` fed to `getUrl`. -/
structure InfoTile where
  z : Nat
  x : Int
  y : Int
  q : List Char

/-- Replace every occurrence of `pat` in a character list by `rep`
(left-to-right, non-overlapping), the substitution core of Python
`str.format` for the fixed placeholders used here.  Structural recursion on a
fuel argument (one unit per consumed character) so that the definition
computes inside the kernel; `replaceSub` supplies enough fuel. -/
def replaceSubF (pat rep : List Char) : Nat → List Char → List Char
  | _, [] => []
  | 0, l => l
  | fuel + 1, c :: rest =>
      if pat ≠ [] ∧ pat.isPrefixOf (c :: rest) = true then
        rep ++ replaceSubF pat rep fuel ((c :: rest).drop pat.length)
      else c :: replaceSubF pat rep fuel rest

/-- Replace every occurrence of `pat` by `rep`. -/
def replaceSub (pat rep : List Char) (l : List Char) : List Char :=
  replaceSubF pat rep l.length l

/-- `value.format(q=info.q)` (line 383). -/
def pyFormatQ (value : String) (q : List Char) : String :=
  ⟨replaceSub ['{', 'q', '}'] q value.toList⟩

/-- `value.format(z=info.z, x=info.x, y=info.y)` (lines 385-387). -/
def pyFormatZXY (value : String) (z : Nat) (x y : Int) : String :=
  ⟨replaceSub ['{', 'y', '}'] (toString y).toList
    (replaceSub ['{', 'x', '}'] (toString x).toList
      (replaceSub ['{', 'z', '}'] (toString z).toList value.toList))⟩

/-- The `getUrl` lambda installed by the setter (lines 381-387). -/
def mkGetUrl (value : String) : InfoTile → String :=
  if totalZXY value < 0 then fun info => pyFormatQ value info.q
  else fun info => pyFormatZXY value info.z info.x info.y

/-- The two attributes the setter touches: `self._frm_url` and
`self.getUrl`. -/
structure LState where
  frm_url : Option String
  getUrl : Option (InfoTile → String)

/-- The `format_url` setter (lines 376-394).  `probe` is
`getResponseValue(url, 5)` (value or error), `probeInfo` is
`self._tilesCanvas.getTileCenter(3)`.  Returns the new state and the raised
exception message, if any. -/
def set_format_url (probe : String → Except String String)
    (probeInfo : InfoTile) (value : String) (s : LState) :
    LState × Option String :=
  let s1 : LState := { s with frm_url := none }
  if value = "" then (s1, none)
  else
    let g := mkGetUrl value
    let s2 : LState := { s1 with getUrl := some g }
    match probe (g probeInfo) with
    | .error e => (s2, some (e ++ " " ++ g probeInfo))
    | .ok _ => ({ s2 with frm_url := some value }, none)

/-- Diagnostic for a failed probe. -/
def probeFails : Except String String → Bool
  | .error _ => true
  | .ok _ => false

/-! ### Slippy-map tile arithmetic (`TilesMapCanvas._deg2num`, `_getExtentTiles`)

Python floats are idealised as real numbers; Python `int()` truncates toward
zero. -/

/-- Python `int()` on a float: truncation toward zero. -/
noncomputable def pyint (x : ℝ) : ℤ := if 0 ≤ x then ⌊x⌋ else ⌈x⌉

/-- `TilesMapCanvas._deg2num` (lines 128-134): `lat_rad = radians(vlat)`,
`n = 2.0 ** zoom`, `xtile = int((vlong + 180)/360 * n)`,
`ytile = int((1 - asinh(tan(lat_rad))/pi)/2 * n)`. -/
noncomputable def deg2num (vlong vlat : ℝ) (zoom : ℕ) : ℤ × ℤ :=
  (pyint ((vlong + 180) / 360 * 2 ^ zoom),
   pyint ((1 - Real.arsinh (Real.tan (vlat * Real.pi / 180)) / Real.pi) / 2 * 2 ^ zoom))

/-- `TilesMapCanvas._getExtentTiles` (lines 149-163): NW corner
`(xMin, yMax)` gives `(x1, y1)`, SE corner `(xMax, yMin)` gives `(x2, y2)`;
the canvas-extent reprojection to EPSG:4326 is external, so the geographic
extent is received directly. -/
noncomputable def getExtentTiles (xMin yMin xMax yMax : ℝ) (zoom : ℕ) :
    ExtentTiles :=
  let p1 := deg2num xMin yMax zoom
  let p2 := deg2num xMax yMin zoom
  ⟨p1.1, p1.2, p2.1, p2.2⟩

/-! ### Derived per-request characterisations and sample data -/

/-- `true` exactly when the request takes the fresh-download path (no cached
file, network bytes open as a valid image); this is when `countDownload` and
the `CreateCopy` write happen. -/
def freshDownload (r : Request) : Bool :=
  !r.env.fileExists && decide (r.env.fetchResult = FetchRes.bytes true)

/-- The message of the failure path taken by `downloadImage` for a failing
request. -/
def failMsg (r : Request) : String :=
  if r.env.fileExists then openErrorMsg r.url
  else
    match r.env.fetchResult with
    | .err e => e ++ " " ++ r.url
    | .bytes _ => openErrorMsg r.url

/-- The `image` emissions of one `downloadImage` call. -/
def stepEvents (hasVrt : Bool) (dirPath : String) (r : Request) : List Ev :=
  if requestFails r then [Ev.imgMessage r.name (failMsg r)]
  else if hasVrt then [] else [Ev.imgFile r.name (tilePath dirPath r.name)]

/-- The vrt-list contribution of one `downloadImage` call. -/
def stepVrt (hasVrt : Bool) (dirPath : String) (r : Request) : List String :=
  if hasVrt && requestSucceeds r then [tilePath dirPath r.name] else []

/-- A request whose file is already cached on disk and valid. -/
def cachedReq : Request := ⟨"a", "ua", ⟨true, true, FetchRes.bytes true⟩⟩

/-- A request that must be fetched and succeeds. -/
def fetchedReq : Request := ⟨"c", "uc", ⟨false, true, FetchRes.bytes true⟩⟩

/-- A request whose network fetch fails. -/
def badReq : Request := ⟨"b", "ub", ⟨false, true, FetchRes.err "boom"⟩⟩

/-! ## Lemmas and theorems -/

theorem pyFindAux_eq_neg_one (c : Char) (l : List Char) (i : Nat)
    (h : c ∉ l) : pyFindAux c l i = -1 := by
  induction l generalizing i with
  | nil => rfl
  | cons d rest ih =>
      simp only [pyFindAux]
      rw [if_neg, ih _ fun hm => h (List.mem_cons_of_mem _ hm)]
      rintro rfl
      exact h (List.mem_cons_self _ _)

theorem pyFind_of_not_mem {value : String} {c : Char}
    (h : c ∉ value.toList) : pyFind value c = -1 :=
  pyFindAux_eq_neg_one c value.toList 0 h

theorem noXYZ_not_mem {value : String} (h : noXYZ value = true) :
    'x' ∉ value.toList ∧ 'y' ∉ value.toList ∧ 'z' ∉ value.toList := by
  refine ⟨fun hm => ?_, fun hm => ?_, fun hm => ?_⟩ <;>
    simpa using List.all_eq_true.mp h _ hm

theorem noXYZ_quadkey (value : String) (h : noXYZ value = true) :
    classifyUrl value = UrlMode.quadkey := by
  obtain ⟨hx, hy, hz⟩ := noXYZ_not_mem h
  unfold classifyUrl totalZXY
  rw [pyFind_of_not_mem hz, pyFind_of_not_mem hx, pyFind_of_not_mem hy]
  norm_num

/-- C2 (counterexample): the template `"y{q}"` contains the letter `y`
(found at index 0) yet is classified QUADKEY, refuting the reading that
QUADKEY is picked only when none of the scanned letters are found; the
template `"xyz.tiles/{q}"` contains none of the placeholder tokens `{x}`,
`{y}`, `{z}` yet is classified XYZ, refuting the reading that XYZ is picked
only when a placeholder is present. -/
theorem urlModeCounterexample :
    classifyUrl "y{q}" = UrlMode.quadkey ∧
    noXYZ "y{q}" = false ∧
    pyFind "y{q}" 'y' = 0 ∧
    classifyUrl "xyz.tiles/{q}" = UrlMode.xyz ∧
    containsTok "xyz.tiles/{q}" "{x}" = false ∧
    containsTok "xyz.tiles/{q}" "{y}" = false ∧
    containsTok "xyz.tiles/{q}" "{z}" = false := by
  refine ⟨by decide, by decide, by decide, by decide, by decide, by decide, by decide⟩

/-- C2 (amended): mode selection tests `value.find('z') + value.find('x') +
value.find('y') < 0` for the bare letters.  When none of the letters occur,
QUADKEY is selected, and XYZ mode implies some letter occurs; the two concrete
templates classify as XYZ and QUADKEY respectively.  (The converse of the
first implication fails, see the counterexample.) -/
theorem urlModeClassification :
    (∀ value : String, noXYZ value = true → classifyUrl value = UrlMode.quadkey) ∧
    (∀ value : String, classifyUrl value = UrlMode.xyz → noXYZ value = false) ∧
    classifyUrl "http://host/{z}/{x}/{y}.png" = UrlMode.xyz ∧
    classifyUrl "http://host/tiles/{q}.jpeg" = UrlMode.quadkey := by
  refine ⟨noXYZ_quadkey, ?_, by decide, by decide⟩
  intro value h
  rcases hb : noXYZ value with _ | _
  · rfl
  · rw [noXYZ_quadkey value hb] at h
    exact absurd h (by decide)

/-- Witness for `urlModeClassification` at the concrete template `"{q}"`. -/
theorem urlModeClassificationWitness :
    noXYZ "{q}" = true ∧ classifyUrl "{q}" = UrlMode.quadkey :=
  ⟨by decide, urlModeClassification.1 "{q}" (by decide)⟩

/-- C10: when a non-empty template is assigned and the validation probe
fails, the raised error leaves `_frm_url = None` (the previous template is
discarded) while `getUrl` has already been replaced by the builder for the
failed template. -/
theorem formatUrlFailedProbe (probe : String → Except String String)
    (probeInfo : InfoTile) (value : String) (s : LState)
    (hval : value ≠ "")
    (hfail : probeFails (probe (mkGetUrl value probeInfo)) = true) :
    (set_format_url probe probeInfo value s).1.frm_url = none ∧
    (set_format_url probe probeInfo value s).1.getUrl = some (mkGetUrl value) ∧
    (set_format_url probe probeInfo value s).2 ≠ none := by
  unfold set_format_url
  rw [if_neg hval]
  cases hp : probe (mkGetUrl value probeInfo) with
  | error e => simp [hp]
  | ok v =>
      rw [hp] at hfail
      exact absurd hfail (by simp [probeFails])

/-- Witness for `formatUrlFailedProbe`: a failing probe on the template
`"http://h/{q}"` over a state that held a previous template. -/
theorem formatUrlFailedProbeWitness :
    ("http://h/{q}" ≠ "") ∧
    probeFails ((fun _ => Except.error "boom")
      (mkGetUrl "http://h/{q}" ⟨3, 1, 2, ['3']⟩)) = true ∧
    ((set_format_url (fun _ => Except.error "boom") ⟨3, 1, 2, ['3']⟩
        "http://h/{q}" ⟨some "old", none⟩).1.frm_url = none ∧
     (set_format_url (fun _ => Except.error "boom") ⟨3, 1, 2, ['3']⟩
        "http://h/{q}" ⟨some "old", none⟩).1.getUrl =
       some (mkGetUrl "http://h/{q}") ∧
     (set_format_url (fun _ => Except.error "boom") ⟨3, 1, 2, ['3']⟩
        "http://h/{q}" ⟨some "old", none⟩).2 ≠ none) :=
  ⟨by decide, rfl,
   formatUrlFailedProbe (fun _ => Except.error "boom") ⟨3, 1, 2, ['3']⟩
     "http://h/{q}" ⟨some "old", none⟩ (by decide) rfl⟩

theorem downloadImage_spec (hasVrt : Bool) (dirPath : String) (st : DState)
    (r : Request) :
    (downloadImage hasVrt dirPath st r).countFeats = st.countFeats + 1 ∧
    (downloadImage hasVrt dirPath st r).fetches =
      st.fetches + (if r.env.fileExists then 0 else 1) ∧
    (downloadImage hasVrt dirPath st r).countDownload =
      st.countDownload + (if freshDownload r then 1 else 0) ∧
    (downloadImage hasVrt dirPath st r).writes =
      st.writes + (if freshDownload r then 1 else 0) ∧
    (downloadImage hasVrt dirPath st r).events =
      st.events ++ stepEvents hasVrt dirPath r ∧
    (downloadImage hasVrt dirPath st r).vrt =
      st.vrt ++ stepVrt hasVrt dirPath r ∧
    (downloadImage hasVrt dirPath st r).sched =
      st.sched ++ [SchedEv.start st.countFeats, SchedEv.done st.countFeats] := by
  rcases r with ⟨nm, url, fe, fv, fr⟩
  rcases fr with e | b
  · cases fe <;> cases fv <;> cases hasVrt <;>
      simp [downloadImage, freshDownload, requestFails, requestSucceeds,
            failMsg, stepEvents, stepVrt]
  · cases fe <;> cases fv <;> cases b <;> cases hasVrt <;>
      simp [downloadImage, freshDownload, requestFails, requestSucceeds,
            failMsg, stepEvents, stepVrt]

theorem runFrom_none_spec (hasVrt : Bool) (dirPath : String) :
    ∀ (rs : List Request) (st : DState),
    (runFrom hasVrt dirPath none rs st).countFeats = st.countFeats + rs.length ∧
    (runFrom hasVrt dirPath none rs st).fetches =
      st.fetches + rs.countP (fun r => !r.env.fileExists) ∧
    (runFrom hasVrt dirPath none rs st).countDownload =
      st.countDownload + rs.countP freshDownload ∧
    (runFrom hasVrt dirPath none rs st).writes =
      st.writes + rs.countP freshDownload ∧
    (runFrom hasVrt dirPath none rs st).events =
      st.events ++ rs.flatMap (stepEvents hasVrt dirPath) ∧
    (runFrom hasVrt dirPath none rs st).vrt =
      st.vrt ++ rs.flatMap (stepVrt hasVrt dirPath) ∧
    (runFrom hasVrt dirPath none rs st).sched =
      st.sched ++ pairTrace st.countFeats rs.length := by
  intro rs
  induction rs with
  | nil => intro st; simp [runFrom, pairTrace]
  | cons r rs ih =>
      intro st
      obtain ⟨h1, h2, h3, h4, h5, h6, h7⟩ := downloadImage_spec hasVrt dirPath st r
      obtain ⟨g1, g2, g3, g4, g5, g6, g7⟩ := ih (downloadImage hasVrt dirPath st r)
      simp only [runFrom, cancelFlag, if_false, Bool.false_eq_true, ite_false]
      refine ⟨?_, ?_, ?_, ?_, ?_, ?_, ?_⟩
      · rw [g1, h1, List.length_cons]; ring
      · rw [g2, h2, List.countP_cons]
        cases hfe : r.env.fileExists <;> simp [hfe] <;> omega
      · rw [g3, h3, List.countP_cons]
        cases hfd : freshDownload r <;> simp [hfd] <;> omega
      · rw [g4, h4, List.countP_cons]
        cases hfd : freshDownload r <;> simp [hfd] <;> omega
      · rw [g5, h5, List.flatMap_cons, List.append_assoc]
      · rw [g6, h6, List.flatMap_cons, List.append_assoc]
      · rw [g7, h7, h1, List.length_cons]
        simp [pairTrace]

theorem runFrom_cancel_countFeats (hasVrt : Bool) (dirPath : String) (t : Nat) :
    ∀ (rs : List Request) (st : DState), st.countFeats ≤ t →
    (runFrom hasVrt dirPath (some t) rs st).countFeats =
      min (t + 1) (st.countFeats + rs.length) := by
  intro rs
  induction rs with
  | nil => intro st h; simp only [runFrom, List.length_nil, Nat.add_zero]; omega
  | cons r rs ih =>
      intro st h
      obtain ⟨h1, _⟩ := downloadImage_spec hasVrt dirPath st r
      simp only [runFrom]
      by_cases hc : t ≤ st.countFeats
      · have ht : t = st.countFeats := Nat.le_antisymm hc h
        rw [if_pos (by simp [cancelFlag]; omega), h1, List.length_cons]
        omega
      · rw [if_neg (by simp [cancelFlag]; omega),
            ih (downloadImage hasVrt dirPath st r) (by omega), h1, List.length_cons]
        omega

theorem runFrom_download_le (hasVrt : Bool) (dirPath : String)
    (cancelAt : Option Nat) :
    ∀ (rs : List Request) (st : DState), st.countDownload ≤ st.countFeats →
    (runFrom hasVrt dirPath cancelAt rs st).countDownload ≤
      (runFrom hasVrt dirPath cancelAt rs st).countFeats := by
  intro rs
  induction rs with
  | nil => intro st h; simpa [runFrom] using h
  | cons r rs ih =>
      intro st h
      obtain ⟨h1, _, h3, _⟩ := downloadImage_spec hasVrt dirPath st r
      simp only [runFrom]
      split
      · rw [h1, h3]; split <;> omega
      · exact ih _ (by rw [h1, h3]; split <;> omega)

theorem stepEvents_no_finish (hasVrt : Bool) (dirPath : String) (r : Request) :
    (stepEvents hasVrt dirPath r).countP isFinishEvB = 0 := by
  unfold stepEvents
  repeat' split <;> simp [isFinishEvB]

theorem runFrom_events_img (hasVrt : Bool) (dirPath : String)
    (cancelAt : Option Nat) :
    ∀ (rs : List Request) (st : DState),
    ∃ l, (runFrom hasVrt dirPath cancelAt rs st).events = st.events ++ l ∧
      l.countP isFinishEvB = 0 := by
  intro rs
  induction rs with
  | nil => intro st; exact ⟨[], by simp [runFrom]⟩
  | cons r rs ih =>
      intro st
      obtain ⟨_, _, _, _, h5, _⟩ := downloadImage_spec hasVrt dirPath st r
      simp only [runFrom]
      split
      · exact ⟨stepEvents hasVrt dirPath r, h5, stepEvents_no_finish _ _ _⟩
      · obtain ⟨l, hl, hc⟩ := ih (downloadImage hasVrt dirPath st r)
        refine ⟨stepEvents hasVrt dirPath r ++ l, ?_, ?_⟩
        · rw [hl, h5, List.append_assoc]
        · rw [List.countP_append, hc, stepEvents_no_finish]

theorem mosaicEvents_no_finish (nm dirPath : String) (zoom : Nat)
    (hasVrt : Bool) (st : DState) :
    (mosaicEvents nm dirPath zoom hasVrt st).countP isFinishEvB = 0 := by
  unfold mosaicEvents
  cases mosaicCall nm dirPath zoom hasVrt st <;> simp [isFinishEvB]

theorem requestFails_not_fresh {r : Request} (h : requestFails r = true) :
    freshDownload r = false := by
  rcases r with ⟨nm, url, fe, fv, fr⟩
  rcases fr with e | b
  · cases fe <;> cases fv <;>
      simp [requestFails, freshDownload] at h ⊢
  · cases fe <;> cases fv <;> cases b <;>
      simp [requestFails, freshDownload] at h ⊢

theorem updateRun_keys (cancelAt : Option Nat) :
    ∀ (k c : Nat),
    hasKey (updateRun cancelAt k c) "canceled" = true ∧
    hasKey (updateRun cancelAt k c) "total" = true ∧
    hasKey (updateRun cancelAt k c) "error" = false := by
  intro k
  induction k with
  | zero => intro c; exact ⟨rfl, rfl, rfl⟩
  | succ k ih =>
      intro c
      simp only [updateRun]
      split
      · exact ⟨rfl, rfl, rfl⟩
      · exact ih (c + 1)

theorem countImagesRun_keys (files : List String) :
    hasKey (countImagesRun files) "canceled" = true ∧
    hasKey (countImagesRun files) "total" = true ∧
    hasKey (countImagesRun files) "error" = false :=
  ⟨rfl, rfl, rfl⟩

theorem removeGo_keys (cancelAt : Option Nat) :
    ∀ (files : List String) (c : Nat),
    hasKey (removeGo cancelAt files c) "canceled" = true ∧
    hasKey (removeGo cancelAt files c) "total" = true ∧
    hasKey (removeGo cancelAt files c) "error" = false := by
  intro files
  induction files with
  | nil => intro c; exact ⟨rfl, rfl, rfl⟩
  | cons f fs ih =>
      intro c
      simp only [removeGo]
      split
      · exact ih c
      · split
        · exact ⟨rfl, rfl, rfl⟩
        · exact ih (c + 1)

theorem removeImagesRun_keys (cancelAt : Option Nat) (files : List String) :
    hasKey (removeImagesRun cancelAt files) "canceled" = true ∧
    hasKey (removeImagesRun cancelAt files) "total" = true ∧
    hasKey (removeImagesRun cancelAt files) "error" = false := by
  unfold removeImagesRun
  split
  · exact ⟨rfl, rfl, rfl⟩
  · exact removeGo_keys cancelAt files 0

theorem taskSlotPayload_keys (opName : String) (exc : Option String)
    (result : Payload) :
    hasKey (taskSlotPayload opName exc result) "canceled" = hasKey result "canceled" ∧
    hasKey (taskSlotPayload opName exc result) "total" = hasKey result "total" ∧
    (exc ≠ none → hasKey (taskSlotPayload opName exc result) "error" = true) ∧
    (exc = none → hasKey (taskSlotPayload opName exc result) "error" =
      hasKey result "error") := by
  cases exc with
  | none => exact ⟨rfl, rfl, fun h => absurd rfl h, fun _ => rfl⟩
  | some m => exact ⟨rfl, rfl, fun _ => rfl, fun h => Option.noConfusion h⟩

/-- C3: every batch operation produces exactly one terminal report carrying
`canceled` and `total` (and `error` exactly when an exception is passed to the
`finished` slot); an individual tile failure emits one informational message
event, leaves the download counter unchanged, still advances the progress
counter, and — with no cancellation — every request of the batch is processed
regardless of per-tile outcomes. -/
theorem batchTerminalReport :
    (∀ (nm dirPath : String) (zoom : Nat) (hasVrt : Bool) (cancelAt : Option Nat)
        (reqs : List Request),
      (downloadStream nm dirPath zoom hasVrt cancelAt reqs).countP isFinishEvB = 1 ∧
      (downloadStream nm dirPath zoom hasVrt cancelAt reqs).getLast? =
        some (Ev.finishEv (slotFinished (taskFinishPayload cancelAt
          (runDownload hasVrt dirPath cancelAt reqs)))) ∧
      hasKey (slotFinished (taskFinishPayload cancelAt
        (runDownload hasVrt dirPath cancelAt reqs))) "canceled" = true ∧
      hasKey (slotFinished (taskFinishPayload cancelAt
        (runDownload hasVrt dirPath cancelAt reqs))) "total" = true ∧
      hasKey (slotFinished (taskFinishPayload cancelAt
        (runDownload hasVrt dirPath cancelAt reqs))) "error" = false) ∧
    (∀ (hasVrt : Bool) (dirPath : String) (reqs : List Request),
      (runDownload hasVrt dirPath none reqs).countFeats = reqs.length) ∧
    (∀ (hasVrt : Bool) (dirPath : String) (st : DState) (r : Request),
      requestFails r = true →
        (downloadImage hasVrt dirPath st r).events =
          st.events ++ [Ev.imgMessage r.name (failMsg r)] ∧
        (downloadImage hasVrt dirPath st r).countDownload = st.countDownload ∧
        (downloadImage hasVrt dirPath st r).countFeats = st.countFeats + 1) ∧
    (∀ (cancelAt : Option Nat) (k c : Nat),
      hasKey (updateRun cancelAt k c) "canceled" = true ∧
      hasKey (updateRun cancelAt k c) "total" = true ∧
      hasKey (updateRun cancelAt k c) "error" = false) ∧
    (∀ files : List String,
      hasKey (countImagesRun files) "canceled" = true ∧
      hasKey (countImagesRun files) "total" = true ∧
      hasKey (countImagesRun files) "error" = false) ∧
    (∀ (cancelAt : Option Nat) (files : List String),
      hasKey (removeImagesRun cancelAt files) "canceled" = true ∧
      hasKey (removeImagesRun cancelAt files) "total" = true ∧
      hasKey (removeImagesRun cancelAt files) "error" = false) ∧
    (∀ (opName : String) (exc : Option String) (result : Payload),
      hasKey (taskSlotPayload opName exc result) "canceled" = hasKey result "canceled" ∧
      hasKey (taskSlotPayload opName exc result) "total" = hasKey result "total" ∧
      (exc ≠ none → hasKey (taskSlotPayload opName exc result) "error" = true) ∧
      (exc = none → hasKey (taskSlotPayload opName exc result) "error" =
        hasKey result "error")) := by
  refine ⟨?_, ?_, ?_, updateRun_keys, countImagesRun_keys, removeImagesRun_keys,
    taskSlotPayload_keys⟩
  · intro nm dirPath zoom hasVrt cancelAt reqs
    obtain ⟨l, hl, hc⟩ := runFrom_events_img hasVrt dirPath cancelAt reqs initDState
    have hl2 : (runDownload hasVrt dirPath cancelAt reqs).events = l := by
      unfold runDownload
      rw [hl]
      rfl
    refine ⟨?_, ?_, rfl, rfl, rfl⟩
    · unfold downloadStream
      rw [List.countP_append, List.countP_append, hl2, hc,
          mosaicEvents_no_finish]
      simp [isFinishEvB]
    · unfold downloadStream
      exact List.getLast?_concat _
  · intro hasVrt dirPath reqs
    have := (runFrom_none_spec hasVrt dirPath reqs initDState).1
    simpa [runDownload, initDState] using this
  · intro hasVrt dirPath st r hf
    obtain ⟨h1, _, h3, _, h5, _⟩ := downloadImage_spec hasVrt dirPath st r
    refine ⟨?_, ?_, h1⟩
    · rw [h5]
      unfold stepEvents
      rw [if_pos hf]
    · rw [h3, requestFails_not_fresh hf]
      simp

/-- Witness for `batchTerminalReport`: the failure conjunct applied to a
request whose fetch fails, and the error-key conjunct applied to an
exception. -/
theorem batchTerminalReportWitness :
    requestFails badReq = true ∧
    ((downloadImage false "d" initDState badReq).events =
       initDState.events ++ [Ev.imgMessage badReq.name (failMsg badReq)] ∧
     (downloadImage false "d" initDState badReq).countDownload =
       initDState.countDownload ∧
     (downloadImage false "d" initDState badReq).countFeats =
       initDState.countFeats + 1) ∧
    (some "ex" ≠ (none : Option String)) ∧
    hasKey (taskSlotPayload "update" (some "ex") (updateRun none 0 0)) "error" = true :=
  ⟨by decide, batchTerminalReport.2.2.1 false "d" initDState badReq (by decide),
   by decide,
   (batchTerminalReport.2.2.2.2.2.2 "update" (some "ex") (updateRun none 0 0)).2.2.1
     (by decide)⟩

theorem inflightMax_pairTrace :
    ∀ (k s m : Nat), inflightMax (pairTrace s k) 0 m ≤ max m 1 := by
  intro k
  induction k with
  | zero => intro s m; simp [pairTrace, inflightMax]
  | succ k ih =>
      intro s m
      simp only [pairTrace, inflightMax]
      calc inflightMax (pairTrace (s + 1) k) (1 - 1) (max m (0 + 1)) ≤
            max (max m (0 + 1)) 1 := ih (s + 1) (max m (0 + 1))
        _ = max m 1 := by omega

theorem startIndices_pairTrace :
    ∀ (k s : Nat), startIndices (pairTrace s k) = List.range' s k := by
  intro k
  induction k with
  | zero => intro s; rfl
  | succ k ih =>
      intro s
      simp only [pairTrace, startIndices, List.filterMap_cons]
      rw [← startIndices, ih (s + 1), List.range'_succ]

/-- C1 (counterexample): the spec policy gives 3 workers for a batch of 4
requests on an 8-cpu machine, but the run loop of `TaskDownloadTiles.run`
calls `downloadImage` synchronously one request at a time: its schedule never
has more than one request in flight, so no pool of 3 parallel workers exists. -/
theorem workerPoolCounterexample :
    specWorkers 8 4 = 3 ∧
    maxInFlight (runDownload false "d" none
      [cachedReq, badReq, fetchedReq, cachedReq]).sched = 1 ∧
    (3 : Nat) ≠ 1 := by
  refine ⟨by decide, by decide, by decide⟩

/-- C1 (amended): the downloads of a batch are executed strictly
sequentially inside the single background task — at most one request is ever
in flight, and the requests start in submission order `0, 1, …, n-1`; no
worker pool (of the size policy `specWorkers` or any other) exists. -/
theorem downloadSequential :
    ∀ (hasVrt : Bool) (dirPath : String) (reqs : List Request),
    maxInFlight (runDownload hasVrt dirPath none reqs).sched ≤ 1 ∧
    startIndices (runDownload hasVrt dirPath none reqs).sched =
      List.range reqs.length := by
  intro hasVrt dirPath reqs
  have h7 := (runFrom_none_spec hasVrt dirPath reqs initDState).2.2.2.2.2.2
  have h8 : (runDownload hasVrt dirPath none reqs).sched =
      pairTrace 0 reqs.length := by
    unfold runDownload
    rw [h7]
    rfl
  constructor
  · rw [maxInFlight, h8]
    calc inflightMax (pairTrace 0 reqs.length) 0 0 ≤ max 0 1 :=
          inflightMax_pairTrace _ _ _
      _ = 1 := rfl
  · rw [h8, startIndices_pairTrace, List.range_eq_range']

/-- C4: cancelling a download after the flag is first observed at the check
following request number `t` stops the loop there — exactly `t + 1` of the
`n` requests are processed, no later request is started — and the terminal
report carries `canceled = true` and a `total` not exceeding the number of
processed requests. -/
theorem downloadCancellation (hasVrt : Bool) (dirPath : String)
    (reqs : List Request) (t : Nat) (ht : t < reqs.length) :
    (runDownload hasVrt dirPath (some t) reqs).countFeats = t + 1 ∧
    plookup "canceled" (slotFinished (taskFinishPayload (some t)
      (runDownload hasVrt dirPath (some t) reqs))) = some (Val.b true) ∧
    plookup "total" (slotFinished (taskFinishPayload (some t)
      (runDownload hasVrt dirPath (some t) reqs))) =
      some (Val.n ((runDownload hasVrt dirPath (some t) reqs).countDownload : Int)) ∧
    (runDownload hasVrt dirPath (some t) reqs).countDownload ≤ t + 1 := by
  have hk : (runDownload hasVrt dirPath (some t) reqs).countFeats = t + 1 := by
    have := runFrom_cancel_countFeats hasVrt dirPath t reqs initDState
      (by simp [initDState])
    unfold runDownload
    rw [this]
    simp [initDState]
    omega
  have hle : (runDownload hasVrt dirPath (some t) reqs).countDownload ≤ t + 1 := by
    have := runFrom_download_le hasVrt dirPath (some t) reqs initDState
      (by simp [initDState])
    unfold runDownload at hk ⊢
    omega
  refine ⟨hk, ?_, rfl, hle⟩
  have : plookup "canceled" (slotFinished (taskFinishPayload (some t)
      (runDownload hasVrt dirPath (some t) reqs))) =
      some (Val.b (cancelFlag (some t)
        (runDownload hasVrt dirPath (some t) reqs).countFeats)) := rfl
  rw [this, hk]
  simp [cancelFlag]

/-- Witness for `downloadCancellation`: a three-request batch cancelled at
the check after the second request. -/
theorem downloadCancellationWitness :
    1 < ([cachedReq, badReq, fetchedReq] : List Request).length ∧
    ((runDownload false "d" (some 1) [cachedReq, badReq, fetchedReq]).countFeats = 1 + 1 ∧
     plookup "canceled" (slotFinished (taskFinishPayload (some 1)
       (runDownload false "d" (some 1) [cachedReq, badReq, fetchedReq]))) =
       some (Val.b true) ∧
     plookup "total" (slotFinished (taskFinishPayload (some 1)
       (runDownload false "d" (some 1) [cachedReq, badReq, fetchedReq]))) =
       some (Val.n ((runDownload false "d" (some 1)
         [cachedReq, badReq, fetchedReq]).countDownload : Int)) ∧
     (runDownload false "d" (some 1)
       [cachedReq, badReq, fetchedReq]).countDownload ≤ 1 + 1) :=
  ⟨by decide, downloadCancellation false "d" [cachedReq, badReq, fetchedReq] 1 (by decide)⟩

theorem runFrom_cached (hasVrt : Bool) (dirPath : String) (cancelAt : Option Nat) :
    ∀ (rs : List Request) (st : DState),
    (rs.all fun r => r.env.fileExists && r.env.fileValidImage) = true →
    (runFrom hasVrt dirPath cancelAt rs st).fetches = st.fetches ∧
    (runFrom hasVrt dirPath cancelAt rs st).writes = st.writes ∧
    (runFrom hasVrt dirPath cancelAt rs st).countDownload = st.countDownload := by
  intro rs
  induction rs with
  | nil => intro st _; exact ⟨rfl, rfl, rfl⟩
  | cons r rs ih =>
      intro st h
      rw [List.all_cons, Bool.and_eq_true] at h
      obtain ⟨hr, hrs⟩ := h
      rw [Bool.and_eq_true] at hr
      obtain ⟨_, h2, h3, h4, _⟩ := downloadImage_spec hasVrt dirPath st r
      have hfd : freshDownload r = false := by
        unfold freshDownload
        rw [hr.1]
        rfl
      have hstep : (downloadImage hasVrt dirPath st r).fetches = st.fetches ∧
          (downloadImage hasVrt dirPath st r).writes = st.writes ∧
          (downloadImage hasVrt dirPath st r).countDownload = st.countDownload := by
        rw [h2, h3, h4, hr.1, hfd]
        exact ⟨rfl, by simp, by simp⟩
      simp only [runFrom]
      split
      · exact hstep
      · obtain ⟨g1, g2, g3⟩ := ih (downloadImage hasVrt dirPath st r) hrs
        exact ⟨by rw [g1, hstep.1], by rw [g2, hstep.2.1], by rw [g3, hstep.2.2]⟩

theorem flatMap_stepEvents_cached (dirPath : String) :
    ∀ rs : List Request,
    (rs.all fun r => r.env.fileExists && r.env.fileValidImage) = true →
    rs.flatMap (stepEvents false dirPath) =
      rs.map fun r => Ev.imgFile r.name (tilePath dirPath r.name) := by
  intro rs
  induction rs with
  | nil => intro _; rfl
  | cons r rs ih =>
      intro h
      rw [List.all_cons, Bool.and_eq_true] at h
      obtain ⟨hr, hrs⟩ := h
      rw [Bool.and_eq_true] at hr
      rw [List.flatMap_cons, List.map_cons, ih hrs]
      congr 1
      unfold stepEvents requestFails
      rw [hr.1, hr.2]
      simp

/-- C5: when every request of the batch finds its valid target file already
on disk, the run performs zero network fetches and zero file writes, counts
zero fresh downloads, the terminal report carries `total = 0`, and (in the
individual-report mode, uncancelled) every tile is reported as an existing
(`Cached`) file. -/
theorem downloadIdempotent (hasVrt : Bool) (dirPath : String)
    (cancelAt : Option Nat) (reqs : List Request)
    (hall : allCachedOk reqs = true) :
    (runDownload hasVrt dirPath cancelAt reqs).fetches = 0 ∧
    (runDownload hasVrt dirPath cancelAt reqs).writes = 0 ∧
    (runDownload hasVrt dirPath cancelAt reqs).countDownload = 0 ∧
    plookup "total" (slotFinished (taskFinishPayload cancelAt
      (runDownload hasVrt dirPath cancelAt reqs))) = some (Val.n 0) ∧
    (hasVrt = false → cancelAt = none →
      (runDownload hasVrt dirPath cancelAt reqs).events =
        reqs.map fun r => Ev.imgFile r.name (tilePath dirPath r.name)) := by
  obtain ⟨g1, g2, g3⟩ := runFrom_cached hasVrt dirPath cancelAt reqs initDState hall
  have h1 : (runDownload hasVrt dirPath cancelAt reqs).fetches = 0 := g1
  have h2 : (runDownload hasVrt dirPath cancelAt reqs).writes = 0 := g2
  have h3 : (runDownload hasVrt dirPath cancelAt reqs).countDownload = 0 := g3
  refine ⟨h1, h2, h3, ?_, ?_⟩
  · have : plookup "total" (slotFinished (taskFinishPayload cancelAt
        (runDownload hasVrt dirPath cancelAt reqs))) =
        some (Val.n ((runDownload hasVrt dirPath cancelAt reqs).countDownload : Int)) :=
      rfl
    rw [this, h3]
    rfl
  · rintro rfl rfl
    have h5 := (runFrom_none_spec false dirPath reqs initDState).2.2.2.2.1
    unfold runDownload
    rw [h5, flatMap_stepEvents_cached dirPath reqs hall]
    rfl

/-- Witness for `downloadIdempotent`: a batch of one cached request. -/
theorem downloadIdempotentWitness :
    allCachedOk [cachedReq] = true ∧
    ((runDownload false "d" none [cachedReq]).fetches = 0 ∧
     (runDownload false "d" none [cachedReq]).writes = 0 ∧
     (runDownload false "d" none [cachedReq]).countDownload = 0 ∧
     plookup "total" (slotFinished (taskFinishPayload none
       (runDownload false "d" none [cachedReq]))) = some (Val.n 0) ∧
     (false = false → (none : Option Nat) = none →
       (runDownload false "d" none [cachedReq]).events =
         [cachedReq].map fun r => Ev.imgFile r.name (tilePath "d" r.name))) :=
  ⟨by decide, downloadIdempotent false "d" none [cachedReq] (by decide)⟩

theorem stepEvents_vrt_messages (dirPath : String) (r : Request) :
    (stepEvents true dirPath r).all isMessageEvB = true := by
  unfold stepEvents
  split <;> simp [isMessageEvB]

theorem flatMap_stepVrt (dirPath : String) :
    ∀ rs : List Request,
    rs.flatMap (stepVrt true dirPath) =
      (rs.filter requestSucceeds).map fun r => tilePath dirPath r.name := by
  intro rs
  induction rs with
  | nil => rfl
  | cons r rs ih =>
      rw [List.flatMap_cons, ih, List.filter_cons]
      unfold stepVrt
      cases hs : requestSucceeds r <;> simp [hs]

/-- C6 (counterexample): in a mosaic (`hasVrt`) job containing one cached
tile and one tile whose fetch fails, the run emits an individual message
event to the `image` channel even though the mosaic is also built — the
mosaic is not the only thing reported. -/
theorem mosaicCounterexample :
    (runDownload true "d" none [cachedReq, badReq]).events ≠ [] ∧
    (mosaicCall "m" "d" 5 true (runDownload true "d" none
      [cachedReq, badReq])).isSome = true := by
  refine ⟨by decide, by decide⟩

/-- C6 (amended): in a mosaic job (uncancelled), no Cached/Fetched result is
reported individually — every event emitted during the run is an
informational failure message — while every Cached/Fetched filepath is
accumulated, in processing order, into the vrt list; afterwards, if any file
was accumulated, exactly one mosaic is built from exactly the accumulated
files with nearest-neighbour resampling and its single filepath event is the
only file reported by `finished`; if no file was accumulated no mosaic event
is emitted. -/
theorem mosaicAssembly (nm dirPath : String) (zoom : Nat)
    (reqs : List Request) :
    (runDownload true dirPath none reqs).events.all isMessageEvB = true ∧
    (runDownload true dirPath none reqs).vrt =
      (reqs.filter requestSucceeds).map (fun r => tilePath dirPath r.name) ∧
    ((runDownload true dirPath none reqs).vrt ≠ [] →
      mosaicCall nm dirPath zoom true (runDownload true dirPath none reqs) =
        some ⟨(runDownload true dirPath none reqs).vrt,
              ResampleAlg.nearestNeighbour, vrtFilepath dirPath nm zoom⟩ ∧
      mosaicEvents nm dirPath zoom true (runDownload true dirPath none reqs) =
        [Ev.imgFile (nm ++ " Z=" ++ toString zoom) (vrtFilepath dirPath nm zoom)]) ∧
    ((runDownload true dirPath none reqs).vrt = [] →
      mosaicEvents nm dirPath zoom true (runDownload true dirPath none reqs) = []) := by
  have h5 := (runFrom_none_spec true dirPath reqs initDState).2.2.2.2.1
  have h6 := (runFrom_none_spec true dirPath reqs initDState).2.2.2.2.2.1
  have hev : (runDownload true dirPath none reqs).events =
      reqs.flatMap (stepEvents true dirPath) := by
    unfold runDownload
    rw [h5]
    rfl
  have hvrt : (runDownload true dirPath none reqs).vrt =
      reqs.flatMap (stepVrt true dirPath) := by
    unfold runDownload
    rw [h6]
    rfl
  refine ⟨?_, ?_, ?_, ?_⟩
  · rw [hev, List.all_eq_true]
    intro e he
    rw [List.mem_flatMap] at he
    obtain ⟨r, _, her⟩ := he
    exact List.all_eq_true.mp (stepEvents_vrt_messages dirPath r) e her
  · rw [hvrt, flatMap_stepVrt]
  · intro hne
    have hmc : mosaicCall nm dirPath zoom true (runDownload true dirPath none reqs) =
        some ⟨(runDownload true dirPath none reqs).vrt,
              ResampleAlg.nearestNeighbour, vrtFilepath dirPath nm zoom⟩ := by
      unfold mosaicCall
      rw [if_pos ⟨rfl, hne⟩]
    refine ⟨hmc, ?_⟩
    unfold mosaicEvents
    rw [hmc]
  · intro hemp
    unfold mosaicEvents mosaicCall
    rw [if_neg fun hcontra => hcontra.2 hemp]

/-- Witness for `mosaicAssembly`: a mosaic job with one cached request. -/
theorem mosaicAssemblyWitness :
    (runDownload true "d" none [cachedReq]).vrt ≠ [] ∧
    (mosaicCall "m" "d" 5 true (runDownload true "d" none [cachedReq]) =
       some ⟨(runDownload true "d" none [cachedReq]).vrt,
             ResampleAlg.nearestNeighbour, vrtFilepath "d" "m" 5⟩ ∧
     mosaicEvents "m" "d" 5 true (runDownload true "d" none [cachedReq]) =
       [Ev.imgFile ("m" ++ " Z=" ++ toString 5) (vrtFilepath "d" "m" 5)]) :=
  ⟨by decide, (mosaicAssembly "m" "d" 5 [cachedReq]).2.2.1 (by decide)⟩

theorem getQuadKey_length (zoom : Nat) (x y : Int) :
    (getQuadKey zoom x y).length = zoom := by
  induction zoom with
  | zero => rfl
  | succ n ih => simp [getQuadKey, ih]

theorem range_flatMap_grid {α : Type} (g : Nat → Nat → α) (a b : Nat) :
    ((List.range a).flatMap fun i => (List.range b).map (g i)) =
      (List.range (a * b)).map fun k => g (k / b) (k % b) := by
  induction a with
  | zero => simp
  | succ n ih =>
      rw [List.range_succ, List.flatMap_append, ih, Nat.succ_mul,
          List.range_add, List.map_append, List.map_map]
      congr 1
      simp only [List.flatMap_cons, List.flatMap_nil, List.append_nil,
        List.map_map, List.map_inj_left, Function.comp_apply, List.mem_range]
      intro j hj
      rw [Nat.add_comm (n * b) j, Nat.add_mul_div_right _ _ (by omega),
          Nat.add_mul_mod_self_right, Nat.div_eq_of_lt hj,
          Nat.mod_eq_of_lt hj, Nat.zero_add]

theorem iterateTiles_eq_map {R : Type} (rectFn : Int → Int → R) (zoom : Nat)
    (e : ExtentTiles) :
    iterateTiles rectFn zoom e =
      (List.range ((e.x2 + 1 - e.x1).toNat * (e.y2 + 1 - e.y1).toNat)).map
        fun k =>
          ⟨e.x1 + (k / (e.y2 + 1 - e.y1).toNat : Nat),
           e.y1 + (k % (e.y2 + 1 - e.y1).toNat : Nat), zoom,
           getQuadKey zoom (e.x1 + (k / (e.y2 + 1 - e.y1).toNat : Nat))
             (e.y1 + (k % (e.y2 + 1 - e.y1).toNat : Nat)),
           rectFn (e.x1 + (k / (e.y2 + 1 - e.y1).toNat : Nat))
             (e.y1 + (k % (e.y2 + 1 - e.y1).toNat : Nat))⟩ := by
  unfold iterateTiles
  exact range_flatMap_grid
    (fun i j => (⟨e.x1 + (i : Int), e.y1 + (j : Int), zoom,
      getQuadKey zoom (e.x1 + (i : Int)) (e.y1 + (j : Int)),
      rectFn (e.x1 + (i : Int)) (e.y1 + (j : Int))⟩ : Tile R)) _ _

/-- C8: the tile generator yields, for any extent-tile range and zoom, the
grid in row-major order: the list has `w * h` entries (`w`, `h` the inclusive
spans of `x` and `y`), entry `k` is the tile
`(x1 + k / h, y1 + k mod h)` — so `x` varies slower — carrying its quadkey
and its rect; every yielded quadkey has length `zoom`; iteration is a pure
function, so re-running it yields the identical sequence; concretely at
zoom 10 over `x:[512,513], y:[341,342]` it yields the 4 tiles in the order
`(512,341),(512,342),(513,341),(513,342)` with quadkeys of length 10. -/
theorem tileIterationRowMajor :
    (∀ (R : Type) (rectFn : Int → Int → R) (zoom : Nat) (e : ExtentTiles),
      (iterateTiles rectFn zoom e).length =
        (e.x2 + 1 - e.x1).toNat * (e.y2 + 1 - e.y1).toNat) ∧
    (∀ (R : Type) (rectFn : Int → Int → R) (zoom : Nat) (e : ExtentTiles)
        (k : Nat),
      k < (e.x2 + 1 - e.x1).toNat * (e.y2 + 1 - e.y1).toNat →
      (iterateTiles rectFn zoom e)[k]? =
        some ⟨e.x1 + (k / (e.y2 + 1 - e.y1).toNat : Nat),
              e.y1 + (k % (e.y2 + 1 - e.y1).toNat : Nat), zoom,
              getQuadKey zoom (e.x1 + (k / (e.y2 + 1 - e.y1).toNat : Nat))
                (e.y1 + (k % (e.y2 + 1 - e.y1).toNat : Nat)),
              rectFn (e.x1 + (k / (e.y2 + 1 - e.y1).toNat : Nat))
                (e.y1 + (k % (e.y2 + 1 - e.y1).toNat : Nat))⟩) ∧
    (∀ (R : Type) (rectFn : Int → Int → R) (zoom : Nat) (e : ExtentTiles),
      iterateTiles rectFn zoom e = iterateTiles rectFn zoom e) ∧
    (∀ (R : Type) (rectFn : Int → Int → R) (zoom : Nat) (e : ExtentTiles)
        (t : Tile R), t ∈ iterateTiles rectFn zoom e → t.q.length = zoom) ∧
    iterateTiles (fun x y => (x, y)) 10 ⟨512, 341, 513, 342⟩ =
      [⟨512, 341, 10, "1202020202".toList, (512, 341)⟩,
       ⟨512, 342, 10, "1202020220".toList, (512, 342)⟩,
       ⟨513, 341, 10, "1202020203".toList, (513, 341)⟩,
       ⟨513, 342, 10, "1202020221".toList, (513, 342)⟩] := by
  refine ⟨?_, ?_, fun _ _ _ _ => rfl, ?_, by decide⟩
  · intro R rectFn zoom e
    rw [iterateTiles_eq_map]
    simp
  · intro R rectFn zoom e k hk
    rw [iterateTiles_eq_map, List.getElem?_map, List.getElem?_range hk]
    rfl
  · intro R rectFn zoom e t ht
    rw [iterateTiles_eq_map, List.mem_map] at ht
    obtain ⟨k, _, rfl⟩ := ht
    exact getQuadKey_length zoom _ _

/-- Witness for `tileIterationRowMajor`: the third yielded tile of the
concrete grid is `(513, 341)`. -/
theorem tileIterationRowMajorWitness :
    2 < ((513 : Int) + 1 - 512).toNat * ((342 : Int) + 1 - 341).toNat ∧
    (iterateTiles (fun x y => (x, y)) 10 ⟨512, 341, 513, 342⟩)[2]? =
      some ⟨513, 341, 10, getQuadKey 10 513 341, (513, 341)⟩ :=
  ⟨by decide, by
    have h := tileIterationRowMajor.2.1 (Int × Int) (fun x y => (x, y)) 10
      ⟨512, 341, 513, 342⟩ 2 (by decide)
    exact h.trans (by decide)⟩

theorem pyint_of_nonneg {x : ℝ} (h : 0 ≤ x) : pyint x = ⌊x⌋ := if_pos h

theorem pyint_mono {x y : ℝ} (h : x ≤ y) : pyint x ≤ pyint y := by
  unfold pyint
  by_cases hx : 0 ≤ x
  · rw [if_pos hx, if_pos (le_trans hx h)]
    exact Int.floor_le_floor h
  · rw [if_neg hx]
    by_cases hy : 0 ≤ y
    · rw [if_pos hy]
      have h1 : (⌈x⌉ : ℤ) ≤ 0 := Int.ceil_le.mpr (by push_cast; linarith [lt_of_not_ge hx])
      have h2 : (0 : ℤ) ≤ ⌊y⌋ := Int.floor_nonneg.mpr hy
      omega
    · rw [if_neg hy]
      exact Int.ceil_le_ceil h

theorem arsinh_tan_le {a : ℝ} (ha : |a| ≤ Real.arctan (Real.sinh Real.pi)) :
    |Real.arsinh (Real.tan a)| ≤ Real.pi := by
  obtain ⟨ha1, ha2⟩ := abs_le.mp ha
  have hb1 : -(Real.pi / 2) < Real.arctan (Real.sinh Real.pi) :=
    Real.neg_pi_div_two_lt_arctan _
  have hb2 : Real.arctan (Real.sinh Real.pi) < Real.pi / 2 :=
    Real.arctan_lt_pi_div_two _
  have hmem : a ∈ Set.Ioo (-(Real.pi / 2)) (Real.pi / 2) :=
    ⟨by linarith, by linarith⟩
  have hmemb : Real.arctan (Real.sinh Real.pi) ∈
      Set.Ioo (-(Real.pi / 2)) (Real.pi / 2) := ⟨hb1, hb2⟩
  have hmemnb : -(Real.arctan (Real.sinh Real.pi)) ∈
      Set.Ioo (-(Real.pi / 2)) (Real.pi / 2) := ⟨by linarith, by linarith⟩
  have hupper : Real.tan a ≤ Real.sinh Real.pi := by
    have := Real.strictMonoOn_tan.monotoneOn hmem hmemb ha2
    rwa [Real.tan_arctan] at this
  have hlower : -Real.sinh Real.pi ≤ Real.tan a := by
    have := Real.strictMonoOn_tan.monotoneOn hmemnb hmem ha1
    rwa [Real.tan_neg, Real.tan_arctan] at this
  rw [abs_le]
  constructor
  · have := Real.arsinh_le_arsinh.mpr hlower
    rwa [Real.arsinh_neg, Real.arsinh_sinh] at this
  · have := Real.arsinh_le_arsinh.mpr hupper
    rwa [Real.arsinh_sinh] at this

theorem y_arg_nonneg {lat : ℝ} (zoom : ℕ)
    (h : |lat * Real.pi / 180| ≤ Real.arctan (Real.sinh Real.pi)) :
    0 ≤ (1 - Real.arsinh (Real.tan (lat * Real.pi / 180)) / Real.pi) / 2 *
      2 ^ zoom := by
  have h2 := arsinh_tan_le h
  have hpi := Real.pi_pos
  have hle : Real.arsinh (Real.tan (lat * Real.pi / 180)) / Real.pi ≤ 1 := by
    rw [div_le_one hpi]
    exact (abs_le.mp h2).2
  have hnn : (0 : ℝ) ≤ (1 - Real.arsinh (Real.tan (lat * Real.pi / 180)) / Real.pi) / 2 := by
    linarith
  exact mul_nonneg hnn (by positivity)

/-- C7: with the latitude inside the Mercator range
`|lat| ≤ arctan(sinh π) ⋅ 180/π ≈ 85.05°` (stated on the radian value) and a
genuine longitude (`lon ≥ -180`), `_deg2num` computes exactly the slippy-map
floor formulas, with no clamping: `x = ⌊(lon+180)/360 ⋅ 2^zoom⌋` and
`y = ⌊(1 - asinh(tan(lat_rad))/π)/2 ⋅ 2^zoom⌋`. -/
theorem degToTileFormula (lon lat : ℝ) (zoom : ℕ) (hlon : -180 ≤ lon)
    (hlat : |lat * Real.pi / 180| ≤ Real.arctan (Real.sinh Real.pi)) :
    deg2num lon lat zoom =
      (⌊(lon + 180) / 360 * 2 ^ zoom⌋,
       ⌊(1 - Real.arsinh (Real.tan (lat * Real.pi / 180)) / Real.pi) / 2 *
         2 ^ zoom⌋) := by
  unfold deg2num
  have hx : (0 : ℝ) ≤ (lon + 180) / 360 * 2 ^ zoom :=
    mul_nonneg (div_nonneg (by linarith) (by norm_num)) (by positivity)
  rw [pyint_of_nonneg hx, pyint_of_nonneg (y_arg_nonneg zoom hlat)]

/-- Witness for `degToTileFormula` at `lon = 0`, `lat = 0`, `zoom = 0`. -/
theorem degToTileFormulaWitness :
    (-180 ≤ (0 : ℝ)) ∧
    |(0 : ℝ) * Real.pi / 180| ≤ Real.arctan (Real.sinh Real.pi) ∧
    deg2num 0 0 0 =
      (⌊((0 : ℝ) + 180) / 360 * 2 ^ (0 : ℕ)⌋,
       ⌊(1 - Real.arsinh (Real.tan ((0 : ℝ) * Real.pi / 180)) / Real.pi) / 2 *
         2 ^ (0 : ℕ)⌋) := by
  have h0 : |(0 : ℝ) * Real.pi / 180| ≤ Real.arctan (Real.sinh Real.pi) := by
    rw [zero_mul, zero_div, abs_zero]
    have harc : Real.arctan 0 ≤ Real.arctan (Real.sinh Real.pi) :=
      Real.arctan_strictMono.monotone (Real.sinh_nonneg_iff.mpr Real.pi_pos.le)
    rwa [Real.arctan_zero] at harc
  exact ⟨by norm_num, h0, degToTileFormula 0 0 0 (by norm_num) h0⟩

/-- C9: for a normalised geographic extent (with the latitudes strictly
inside the poles) and any zoom, the computed tile range satisfies
`x1 ≤ x2` and `y1 ≤ y2`, the `total` method returns
`(x2-x1+1)*(y2-y1+1)`, and when both extent corners land in the same tile
the total is 1. -/
theorem extentTilesInvariant (xMin yMin xMax yMax : ℝ) (zoom : ℕ)
    (h1 : xMin ≤ xMax) (h2 : yMin ≤ yMax) (h3 : -90 < yMin) (h4 : yMax < 90) :
    (getExtentTiles xMin yMin xMax yMax zoom).x1 ≤
      (getExtentTiles xMin yMin xMax yMax zoom).x2 ∧
    (getExtentTiles xMin yMin xMax yMax zoom).y1 ≤
      (getExtentTiles xMin yMin xMax yMax zoom).y2 ∧
    totalTiles (getExtentTiles xMin yMin xMax yMax zoom) =
      ((getExtentTiles xMin yMin xMax yMax zoom).x2 -
        (getExtentTiles xMin yMin xMax yMax zoom).x1 + 1) *
      ((getExtentTiles xMin yMin xMax yMax zoom).y2 -
        (getExtentTiles xMin yMin xMax yMax zoom).y1 + 1) ∧
    (deg2num xMin yMax zoom = deg2num xMax yMin zoom →
      totalTiles (getExtentTiles xMin yMin xMax yMax zoom) = 1) := by
  have hpi := Real.pi_pos
  have hxarg : (xMin + 180) / 360 * 2 ^ zoom ≤ (xMax + 180) / 360 * 2 ^ zoom := by
    gcongr
  have hrad : yMin * Real.pi / 180 ≤ yMax * Real.pi / 180 := by
    gcongr
  have hm1 : -(Real.pi / 2) < yMin * Real.pi / 180 := by
    nlinarith [mul_pos (show (0:ℝ) < yMin + 90 by linarith) hpi]
  have hm2 : yMax * Real.pi / 180 < Real.pi / 2 := by
    nlinarith [mul_pos (show (0:ℝ) < 90 - yMax by linarith) hpi]
  have hmemn : yMin * Real.pi / 180 ∈ Set.Ioo (-(Real.pi / 2)) (Real.pi / 2) :=
    ⟨hm1, lt_of_le_of_lt hrad hm2⟩
  have hmemx : yMax * Real.pi / 180 ∈ Set.Ioo (-(Real.pi / 2)) (Real.pi / 2) :=
    ⟨lt_of_lt_of_le hm1 hrad, hm2⟩
  have htan : Real.tan (yMin * Real.pi / 180) ≤ Real.tan (yMax * Real.pi / 180) :=
    Real.strictMonoOn_tan.monotoneOn hmemn hmemx hrad
  have hars : Real.arsinh (Real.tan (yMin * Real.pi / 180)) ≤
      Real.arsinh (Real.tan (yMax * Real.pi / 180)) :=
    Real.arsinh_le_arsinh.mpr htan
  have hyarg : (1 - Real.arsinh (Real.tan (yMax * Real.pi / 180)) / Real.pi) / 2 *
      2 ^ zoom ≤
      (1 - Real.arsinh (Real.tan (yMin * Real.pi / 180)) / Real.pi) / 2 *
      2 ^ zoom := by
    have hdiv : Real.arsinh (Real.tan (yMin * Real.pi / 180)) / Real.pi ≤
        Real.arsinh (Real.tan (yMax * Real.pi / 180)) / Real.pi := by
      gcongr
    apply mul_le_mul_of_nonneg_right _ (by positivity)
    linarith
  refine ⟨pyint_mono hxarg, pyint_mono hyarg, rfl, ?_⟩
  intro heq
  have hx : (deg2num xMin yMax zoom).1 = (deg2num xMax yMin zoom).1 := by rw [heq]
  have hy : (deg2num xMin yMax zoom).2 = (deg2num xMax yMin zoom).2 := by rw [heq]
  show ((deg2num xMax yMin zoom).1 - (deg2num xMin yMax zoom).1 + 1) *
      ((deg2num xMax yMin zoom).2 - (deg2num xMin yMax zoom).2 + 1) = 1
  rw [← hx, ← hy]
  ring

/-- Witness for `extentTilesInvariant` at the degenerate extent
`(0,0)-(0,0)` and zoom 0. -/
theorem extentTilesInvariantWitness :
    ((0 : ℝ) ≤ 0) ∧ ((0 : ℝ) ≤ 0) ∧ (-90 < (0 : ℝ)) ∧ ((0 : ℝ) < 90) ∧
    ((getExtentTiles 0 0 0 0 0).x1 ≤ (getExtentTiles 0 0 0 0 0).x2 ∧
     (getExtentTiles 0 0 0 0 0).y1 ≤ (getExtentTiles 0 0 0 0 0).y2 ∧
     totalTiles (getExtentTiles 0 0 0 0 0) =
       ((getExtentTiles 0 0 0 0 0).x2 - (getExtentTiles 0 0 0 0 0).x1 + 1) *
       ((getExtentTiles 0 0 0 0 0).y2 - (getExtentTiles 0 0 0 0 0).y1 + 1) ∧
     (deg2num 0 0 0 = deg2num 0 0 0 →
       totalTiles (getExtentTiles 0 0 0 0 0) = 1)) :=
  ⟨le_refl _, le_refl _, by norm_num, by norm_num,
   extentTilesInvariant 0 0 0 0 0 (le_refl _) (le_refl _) (by norm_num)
     (by norm_num)⟩
